import Mathlib

/-! go-here: routing parameters and service calls.

A shallow embedding of `here/routing.go` and `here/geocoding.go`.

* A Go `string` is a sequence of bytes; it is embedded as a list of natural
  numbers, each byte being a number below 256.  Source literals are written
  with `lit`.
* A Go `float32` is embedded by its IEEE-754 bit pattern, and `%f` is
  embedded as the exact decimal rendering with six fraction digits that
  `strconv` computes.
* A Go panic is embedded as the error side of `Except`.
-/

namespace Here

/-! ## Strings -/

/-- A Go string: its bytes, in order. -/
abbrev GoString := List Nat

/-- An ASCII literal of the source, as its bytes. -/
def lit (s : String) : GoString := s.data.map Char.toNat

/-- What can stop a Go function before it returns. -/
inductive Panic where
  /-- A slice expression whose bounds are out of range. -/
  | sliceBounds
  /-- An index expression whose index is out of range. -/
  | indexOutOfRange
  /-- The evaluation budget of a loop of the embedding was used up
  (never reached: see `waypointLoop_run`). -/
  | outOfFuel
  /-- A method call through a nil interface value. -/
  | nilDereference
  deriving DecidableEq, Repr

deriving instance DecidableEq for Except

/-- The slice expression `s[:hi]` for a signed bound `hi`: it panics unless
`0 ≤ hi ≤ len(s)`, and otherwise keeps the first `hi` bytes. -/
def sliceTo (s : GoString) (hi : Int) : Except Panic GoString :=
  if hi < 0 ∨ (s.length : Int) < hi then .error .sliceBounds
  else .ok (s.take hi.toNat)

/-- Decimal digits of `n`, least significant first, as ASCII bytes; `fuel`
bounds the number of digits produced. -/
def digitsRev : Nat → Nat → List Nat
  | 0, _ => []
  | fuel + 1, n => (48 + n % 10) :: (if n / 10 = 0 then [] else digitsRev fuel (n / 10))

/-- The call `strconv.Itoa(n)` for a non-negative `n`: the decimal digits of
`n`, most significant first, without leading zeros. -/
def Itoa (n : Nat) : GoString := (digitsRev (n + 1) n).reverse

/-- The call `strings.ToLower` on one ASCII byte. -/
def toLowerByte (b : Nat) : Nat := if 65 ≤ b ∧ b ≤ 90 then b + 32 else b

/-- The call `strings.ToLower(s)` for an ASCII string `s` (the field names it
is applied to are ASCII), where it acts on each byte. -/
def ToLower (s : GoString) : GoString := s.map toLowerByte

/-! ## Formatting a float32 with `%f` -/

/-- A Go `float32`, given by its IEEE-754 binary32 bit pattern
(`math.Float32bits`); only the low 32 bits are read. -/
structure Float32 where
  bits : Nat
  deriving DecidableEq, Repr

/-- The integer nearest to `num / den`, ties going to the even one: the
rounding of `strconv`'s `decimal.Round`. -/
def roundHalfEven (num den : Nat) : Nat :=
  if den < 2 * (num % den) ∨ (2 * (num % den) = den ∧ num / den % 2 = 1) then num / den + 1
  else num / den

/-- The six fraction digits of `%f` for a number `n` of millionths. -/
def fraction6 (n : Nat) : GoString :=
  [48 + n / 100000 % 10, 48 + n / 10000 % 10, 48 + n / 1000 % 10,
   48 + n / 100 % 10, 48 + n / 10 % 10, 48 + n % 10]

/-- The verb `%f` of `fmt.Sprintf` applied to a `float32`
(`strconv.AppendFloat(_, v, 'f', 6, 32)` with the sign handling of
`fmt`): `NaN`, `+Inf`, `-Inf`, or an optional minus sign, the integer part,
a point and six fraction digits, the exact value `mant * 2 ^ (exp - 150)`
being rounded to the nearest millionth, ties to even. -/
def fmtFloat (x : Float32) : GoString :=
  let bits := x.bits % 2 ^ 32
  let neg := bits / 2 ^ 31
  let exp := bits / 2 ^ 23 % 256
  let mant := bits % 2 ^ 23
  if exp = 255 then
    if mant ≠ 0 then lit "NaN" else if neg = 1 then lit "-Inf" else lit "+Inf"
  else
    let m := if exp = 0 then mant else mant + 2 ^ 23
    let e := if exp = 0 then 1 else exp
    let micro := roundHalfEven (m * 2 ^ e * 1000000) (2 ^ 150)
    (if neg = 1 then lit "-" else []) ++ Itoa (micro / 1000000) ++ lit "." ++
      fraction6 (micro % 1000000)

/-- The Go type `[2]float32`: a coordinate pair. -/
abbrev Coord := Float32 × Float32

/-- Returns waypoints as a formatted string: `fmt.Sprintf("%f,%f", waypoint[0], waypoint[1])`. -/
def createWaypoint (waypoint : Coord) : GoString :=
  fmtFloat waypoint.1 ++ lit "," ++ fmtFloat waypoint.2

/-! ## Strings through JSON

The builder writes its values into a JSON object and reads them back into a
struct.  `encoding/json` encodes a string "coerced to valid UTF-8, replacing
invalid bytes with the Unicode replacement rune", and decodes what it
encoded back to the same text. -/

/-- Whether `b` is a UTF-8 continuation byte. -/
def isCont (b : Nat) : Bool := decide (128 ≤ b ∧ b ≤ 191)

/-- The size that `utf8.DecodeRuneInString` reports for a well-formed
encoding at the start of `s`, and `0` where it reports `RuneError` with
size 1 (or the string is empty). -/
def runeLen : GoString → Nat
  | [] => 0
  | b0 :: rest =>
    if b0 < 128 then 1
    else if 194 ≤ b0 ∧ b0 ≤ 223 then
      match rest with
      | b1 :: _ => if isCont b1 then 2 else 0
      | _ => 0
    else if 224 ≤ b0 ∧ b0 ≤ 239 then
      match rest with
      | b1 :: b2 :: _ =>
        if (if b0 = 224 then 160 else 128) ≤ b1 ∧ b1 ≤ (if b0 = 237 then 159 else 191) ∧
            isCont b2 then 3 else 0
      | _ => 0
    else if 240 ≤ b0 ∧ b0 ≤ 244 then
      match rest with
      | b1 :: b2 :: b3 :: _ =>
        if (if b0 = 240 then 144 else 128) ≤ b1 ∧ b1 ≤ (if b0 = 244 then 143 else 191) ∧
            isCont b2 ∧ isCont b3 then 4 else 0
      | _ => 0
    else 0

/-- Worker of `jsonString`; every step consumes at least one byte, so a fuel
of `len(s)` is enough. -/
def jsonStringAux : Nat → GoString → GoString
  | 0, _ => []
  | _ + 1, [] => []
  | fuel + 1, b :: rest =>
    match runeLen (b :: rest) with
    | 0 => 239 :: 191 :: 189 :: jsonStringAux fuel rest
    | n + 1 => b :: rest.take n ++ jsonStringAux fuel (rest.drop n)

/-- The string read back by `json.Unmarshal` from the encoding `json.Marshal`
gives the string `s`: well-formed UTF-8 sequences are kept, every other byte
becomes U+FFFD (bytes `EF BF BD`). -/
def jsonString (s : GoString) : GoString := jsonStringAux s.length s

/-! ## Struct values, query encoding -/

/-- RoutingParams parameters for Routing Service. -/
structure RoutingParams where
  /-- Tagged `url:"waypoint0"`. -/
  Waypoint0 : GoString
  /-- Tagged `url:"waypoint1"`. -/
  Waypoint1 : GoString
  /-- Tagged `url:"apikey"`. -/
  APIKey : GoString
  /-- Tagged `url:"mode"`. -/
  Modes : GoString
  /-- Tagged `url:"departure"`. -/
  Departure : GoString
  deriving DecidableEq, Repr

/-- A string field of a struct value as reflection sees it: the Go field
name, the key named by its `url` tag, and the value. -/
structure Field where
  name : GoString
  url : GoString
  value : GoString
  deriving DecidableEq, Repr

/-- The fields of a `RoutingParams` value, in declaration order. -/
def RoutingParams.fields (p : RoutingParams) : List Field :=
  [⟨lit "Waypoint0", lit "waypoint0", p.Waypoint0⟩,
   ⟨lit "Waypoint1", lit "waypoint1", p.Waypoint1⟩,
   ⟨lit "APIKey", lit "apikey", p.APIKey⟩,
   ⟨lit "Modes", lit "mode", p.Modes⟩,
   ⟨lit "Departure", lit "departure", p.Departure⟩]

/-- What `CreateRoutingParams` returns as `interface{}`: a `RoutingParams`
value, or a value of a struct type built at run time. -/
inductive Params where
  | static (p : RoutingParams)
  | dynamic (fields : List Field)
  deriving DecidableEq, Repr

/-- The fields of the returned value. -/
def Params.fields : Params → List Field
  | .static p => p.fields
  | .dynamic fields => fields

/-- The query parameters that `QueryStruct(params)` encodes (`query.Values`
of go-querystring): one key/value pair per field, the key taken from the
field's `url` tag; a string field without `omitempty` is always present.
The Go value is a map, which sling encodes sorted by key: the order of this
list stands for nothing in the code, and the statements on it are about
membership, permutations, counts and lookups under distinct keys only. -/
def queryValues (params : Params) : List (GoString × GoString) :=
  params.fields.map fun f => (f.url, f.value)

/-- Whether a byte is an ASCII decimal digit. -/
def isDigit (b : Nat) : Bool := decide (48 ≤ b ∧ b ≤ 57)

/-- A positional key: `waypoint` followed by a decimal number. -/
def isPositionalKey (key : GoString) : Bool :=
  (lit "waypoint").isPrefixOf key && !(key.drop 8).isEmpty && (key.drop 8).all isDigit

/-- The positional parameters (in no meaningful order, see `queryValues`). -/
def positional (params : Params) : List (GoString × GoString) :=
  (queryValues params).filter fun kv => isPositionalKey kv.1

/-- The other parameters (in no meaningful order, see `queryValues`). -/
def nonPositional (params : Params) : List (GoString × GoString) :=
  (queryValues params).filter fun kv => !isPositionalKey kv.1

/-! ## The libraries behind the dynamic branch -/

/-- A field definition held by a `dynamicstruct.Builder`: name and `url` key
(every field here has type `string`). -/
structure FieldConfig where
  name : GoString
  url : GoString
  deriving DecidableEq, Repr

/-- The call `builder.AddField(name, "", tag)`: the builder keeps its
definitions by field name, so a name already present has its definition
replaced and a new name is added.  The builder is a Go map, so the struct
type built from it has no fixed field order: the order of this list (first
addition) stands for nothing in the code. -/
def AddField : List FieldConfig → GoString → GoString → List FieldConfig
  | [], name, url => [⟨name, url⟩]
  | c :: rest, name, url =>
    if c.name = name then ⟨name, url⟩ :: rest else c :: AddField rest name url

/-- The call `dynamicstruct.ExtendStruct(value)`: a builder holding one
definition per field of `value`, added in declaration order. -/
def ExtendStruct (value : List Field) : List FieldConfig :=
  value.foldl (fun builder f => AddField builder f.name f.url) []

/-- The call `builder.Build().New()`: a zero value of the struct type the
builder defines. -/
def New (builder : List FieldConfig) : List Field :=
  builder.map fun c => ⟨c.name, c.url, []⟩

/-- The call `jsonObj.Set(value, name)` of gabs on an object: the member
`name` is created, or overwritten when it exists. -/
def Set : List (GoString × GoString) → GoString → GoString → List (GoString × GoString)
  | [], value, name => [(name, value)]
  | kv :: rest, value, name =>
    if kv.1 = name then (name, value) :: rest else kv :: Set rest value name

/-- The call `json.Unmarshal(jsonObj.Bytes(), &routingParams)`: every field
whose name is a member of the object receives that member's string, as it
comes back from JSON; the other fields keep their value.  The member names
are ASCII and each is the exact name of a field.  Decoding strings into
string fields does not fail, so `err` is nil and `log.Fatal` is not reached. -/
def Unmarshal (jsonObj : List (GoString × GoString)) (routingParams : List Field) : List Field :=
  routingParams.map fun f =>
    match jsonObj.lookup f.name with
    | some v => { f with value := jsonString v }
    | none => f

/-! ## CreateRoutingParams -/

/-- The variables the waypoint loop of `CreateRoutingParams` updates. -/
structure LoopState where
  index : Nat
  /-- The builder behind `extendStruct`, which `AddField` updates in place. -/
  extendStruct : List FieldConfig
  /-- Whether `builder` has been assigned (it then is `extendStruct`). -/
  builderSet : Bool
  jsonObj : List (GoString × GoString)
  deriving DecidableEq, Repr

/-- The loop `for index = 0; index <= len(waypoints); index++ { ... }`,
one iteration per unit of fuel. -/
def waypointLoop (waypoints : List Coord) : Nat → LoopState → Except Panic LoopState
  | 0, _ => .error .outOfFuel
  | fuel + 1, st =>
    if st.index ≤ waypoints.length then
      let name := lit "Waypoint" ++ Itoa (st.index + 1)
      let extendStruct := AddField st.extendStruct name (ToLower name)
      if st.index < waypoints.length then
        match waypoints[st.index]? with
        | some w =>
          waypointLoop waypoints fuel
            ⟨st.index + 1, extendStruct, true, Set st.jsonObj (createWaypoint w) name⟩
        | none => .error .indexOutOfRange
      else
        waypointLoop waypoints fuel ⟨st.index + 1, extendStruct, true, st.jsonObj⟩
    else .ok st

/-- The local `routeModes` of `CreateRoutingParams` (lines 149 to 155): every
mode name is written to the buffer followed by `;`, and the last byte of the
buffer is cut off by `routeModes[:len(routeModes)-1]`. -/
def routeModes {Enum : Type} (ValueOfRouteMode : Enum → GoString) (modes : List Enum) :
    Except Panic GoString :=
  let buffer := modes.foldl
    (fun buffer routeMode => buffer ++ (ValueOfRouteMode routeMode ++ lit ";")) []
  sliceTo buffer ((buffer.length : Int) - 1)

/-- CreateRoutingParams creates routing parameters struct.  The enumeration
type and `ValueOfRouteMode` are declared outside the embedded files and are
parameters. -/
def CreateRoutingParams {Enum : Type} (ValueOfRouteMode : Enum → GoString)
    (origin destination : Coord) (waypoints : List Coord) (apiKey : GoString)
    (modes : List Enum) : Except Panic Params := do
  let stringOrigin := createWaypoint origin
  let stringDestination := createWaypoint destination
  let routeModes ← routeModes ValueOfRouteMode modes
  if waypoints.length ≤ 0 then
    return .static
      { Waypoint0 := stringOrigin
        Waypoint1 := stringDestination
        APIKey := apiKey
        Modes := routeModes
        Departure := lit "now" }
  else
    let extendStruct := ExtendStruct (RoutingParams.fields ⟨[], [], [], [], []⟩)
    let st ← waypointLoop waypoints (waypoints.length + 2) ⟨0, extendStruct, false, []⟩
    if st.builderSet = false then throw .nilDereference
    let routingParams := New st.extendStruct
    let jsonObj := Set st.jsonObj apiKey (lit "APIKey")
    let jsonObj := Set jsonObj routeModes (lit "Modes")
    let jsonObj := Set jsonObj (lit "now") (lit "Departure")
    let jsonObj := Set jsonObj stringOrigin (lit "Waypoint0")
    let jsonObj := Set jsonObj stringDestination (lit "Waypoint" ++ Itoa st.index)
    return .dynamic (Unmarshal jsonObj routingParams)

/-! ## Service calls -/

/-- Modelled from the spec: the type `APIError` is declared outside the
embedded files.  The spec describes it as the "structured error payload
returned with a non-success status"; it is embedded as the members decoded
from that payload, the zero value `new(APIError)` having none. -/
structure APIError where
  members : List (GoString × GoString)
  deriving DecidableEq, Repr

/-- Modelled from the spec: whether an `APIError` holds no payload. -/
def APIError.Empty (e : APIError) : Bool := e.members.isEmpty

/-- An `error` value other than nil. -/
inductive Error where
  /-- The request could not be built or sent, or no answer was received. -/
  | transport (msg : GoString)
  /-- The body of the answer could not be decoded into its target. -/
  | decode (msg : GoString)
  /-- The API error decoded from the answer. -/
  | api (apiError : APIError)
  deriving DecidableEq, Repr

/-- A request as sling builds it: the path given to `Get` and the query
parameters given to `QueryStruct`. -/
structure Request where
  path : GoString
  query : List (GoString × GoString)
  deriving DecidableEq, Repr

/-- An `*http.Response`, as far as sling reads it. -/
structure Response where
  StatusCode : Nat
  /-- The declared length of the body; `-1` when unknown, `0` when there is
  no body. -/
  ContentLength : Int
  Body : GoString
  deriving DecidableEq, Repr

/-- What `httpClient.Do` gives for a request: an error, or an answer. -/
inductive Exchange where
  | failed (msg : GoString)
  | answered (resp : Response)
  deriving DecidableEq, Repr

/-- A JSON decoder for targets of type `T` (`json.NewDecoder(body).Decode(v)`):
from the body and the target as it is, the target as decoding leaves it and
the decoding error, if any. -/
abbrev Decoder (T : Type) := GoString → T → T × Option GoString

/-- What `Receive` leaves behind: the two targets, the response and the error. -/
structure Received (S F : Type) where
  successV : Option S
  failureV : Option F
  resp : Option Response
  err : Option Error

/-- The call `sling.Receive(successV, failureV)` that sends the request
through `httpClient` (a nil target is `none`).  An answer with status 204 or without
content is not decoded; otherwise the body is decoded into `successV` when
the status is 2xx and into `failureV` when it is not, a nil target being
skipped. -/
def Receive {S F : Type} (decodeS : Decoder S) (decodeF : Decoder F)
    (httpClient : Request → Exchange) (req : Request)
    (successV : Option S) (failureV : Option F) : Received S F :=
  match httpClient req with
  | .failed msg => ⟨successV, failureV, none, some (.transport msg)⟩
  | .answered resp =>
    if resp.StatusCode = 204 ∨ resp.ContentLength = 0 then
      ⟨successV, failureV, some resp, none⟩
    else if 200 ≤ resp.StatusCode ∧ resp.StatusCode ≤ 299 then
      match successV with
      | none => ⟨successV, failureV, some resp, none⟩
      | some s =>
        ⟨some (decodeS resp.Body s).1, failureV, some resp, (decodeS resp.Body s).2.map .decode⟩
    else
      match failureV with
      | none => ⟨successV, failureV, some resp, none⟩
      | some f =>
        ⟨successV, some (decodeF resp.Body f).1, some resp, (decodeF resp.Body f).2.map .decode⟩

/-- The call `sling.ReceiveSuccess(successV)`: `Receive(successV, nil)`. -/
def ReceiveSuccess {S : Type} (decodeS : Decoder S) (httpClient : Request → Exchange)
    (req : Request) (successV : Option S) : Received S Unit :=
  Receive decodeS (fun _ f => (f, none)) httpClient req successV none

/-- Modelled from the spec: `relevantError` is declared outside the embedded
files.  By the spec errors are "either transport-level" or "API-level" and
are surfaced as "a single combined error value": the error of the call when
there is one, else the API error when it holds a payload, else nil. -/
def relevantError (httpError : Option Error) (apiError : APIError) :
    Option Error :=
  match httpError with
  | some e => some e
  | none => if apiError.Empty then none else some (.api apiError)

/-- What a service method returns: the DTO pointer, the response and the
error. -/
structure Result (R : Type) where
  dto : Option R
  resp : Option Response
  err : Option Error

/-- Route with given parameters.  The fields of `RoutingResponse` are not
read by the method; the type, its zero value and its decoder are parameters. -/
def Route {RoutingResponse : Type} (zero : RoutingResponse)
    (decode : Decoder RoutingResponse) (decodeError : Decoder APIError)
    (httpClient : Request → Exchange) (params : Params) : Result RoutingResponse :=
  let routes := some zero
  let apiError : APIError := ⟨[]⟩
  let r := Receive decode decodeError httpClient
    ⟨lit "calculateroute.json", queryValues params⟩ routes (some apiError)
  ⟨r.successV, r.resp, relevantError r.err (r.failureV.getD apiError)⟩

/-- Geocode by search text.  The fields of `GeocodingResponse` are not read
by the method; the type, its zero value and its decoder are parameters. -/
def Search {GeocodingResponse : Type} (zero : GeocodingResponse)
    (decode : Decoder GeocodingResponse)
    (httpClient : Request → Exchange) (text : GoString) : Result GeocodingResponse :=
  let searchTextParams := [(lit "searchtext", text)]
  let geocodingResponse := some zero
  let r := ReceiveSuccess decode httpClient ⟨lit "geocode.json", searchTextParams⟩
    geocodingResponse
  ⟨r.successV, r.resp, r.err⟩

/-- Modelled from the spec: the weather service methods are declared outside
the embedded files (only their tests are embedded).  The spec describes the
service methods as "parallel instances of the same shape"; a weather method
is embedded with the shape of `Route`, for the request it builds. -/
def weatherCall {R : Type} (zero : R) (decode : Decoder R) (decodeError : Decoder APIError)
    (httpClient : Request → Exchange) (req : Request) : Result R :=
  let apiError : APIError := ⟨[]⟩
  let r := Receive decode decodeError httpClient req (some zero) (some apiError)
  ⟨r.successV, r.resp, relevantError r.err (r.failureV.getD apiError)⟩

/-- Modelled from the spec: `WeatherService.SevereWeatherAlerts`, declared
outside the embedded files; see `weatherCall`. -/
def SevereWeatherAlerts {R : Type} (zero : R) (decode : Decoder R)
    (decodeError : Decoder APIError) (httpClient : Request → Exchange) (req : Request) :
    Result R :=
  weatherCall zero decode decodeError httpClient req

/-- Modelled from the spec: `WeatherService.WeatherConditions`, declared
outside the embedded files; see `weatherCall`. -/
def WeatherConditions {R : Type} (zero : R) (decode : Decoder R)
    (decodeError : Decoder APIError) (httpClient : Request → Exchange) (req : Request) :
    Result R :=
  weatherCall zero decode decodeError httpClient req

end Here

/-! ## Vocabulary of the statements -/

namespace Here

/-- The number a little-endian list of ASCII digits stands for. -/
def valRev : List Nat → Nat
  | [] => 0
  | d :: ds => (d - 48) + 10 * valRev ds

/-- A byte that `%f` can produce: ASCII, and neither a comma nor a space. -/
def isPlain (b : Nat) : Prop := b < 128 ∧ b ≠ 44 ∧ b ≠ 32

instance (b : Nat) : Decidable (isPlain b) := by
  unfold isPlain
  infer_instance

/-- The Go name of the field with index `k`: `"Waypoint" + strconv.Itoa(k)`. -/
def fieldName (k : Nat) : GoString := lit "Waypoint" ++ Itoa k

/-- The positional key with index `k`: `waypoint` followed by `k` in decimal. -/
def waypointKey (k : Nat) : GoString := lit "waypoint" ++ Itoa k

/-- The members the waypoint loop writes for the waypoints `ws`, the first of
them under index `first`. -/
def membersFrom (first : Nat) : List Coord → List (GoString × GoString)
  | [] => []
  | w :: ws => (fieldName first, createWaypoint w) :: membersFrom (first + 1) ws

/-- The field definitions with indices `first`, ..., `first + count - 1`. -/
def configsFrom (first count : Nat) : List FieldConfig :=
  (List.range' first count).map fun k => ⟨fieldName k, waypointKey k⟩

/-- The fields holding the waypoints `ws`, the first of them under index
`first`. -/
def fieldsFrom (first : Nat) : List Coord → List Field
  | [] => []
  | w :: ws => ⟨fieldName first, waypointKey first, createWaypoint w⟩ :: fieldsFrom (first + 1) ws

/-- The positional parameters holding the waypoints `ws`, the first of them
under index `first`. -/
def pairsFrom (first : Nat) : List Coord → List (GoString × GoString)
  | [] => []
  | w :: ws => (waypointKey first, createWaypoint w) :: pairsFrom (first + 1) ws

/-- The field definitions of `RoutingParams`. -/
def baseConfigs : List FieldConfig :=
  [⟨lit "Waypoint0", lit "waypoint0"⟩, ⟨lit "Waypoint1", lit "waypoint1"⟩,
   ⟨lit "APIKey", lit "apikey"⟩, ⟨lit "Modes", lit "mode"⟩,
   ⟨lit "Departure", lit "departure"⟩]

/-- The fields of the value the dynamic branch returns for a first waypoint
`w`, further waypoints `ws` and the mode string `rm`. -/
def dynamicFields (origin destination w : Coord) (ws : List Coord) (apiKey rm : GoString) :
    List Field :=
  [⟨lit "Waypoint0", lit "waypoint0", createWaypoint origin⟩,
   ⟨lit "Waypoint1", lit "waypoint1", createWaypoint w⟩,
   ⟨lit "APIKey", lit "apikey", jsonString apiKey⟩,
   ⟨lit "Modes", lit "mode", jsonString rm⟩,
   ⟨lit "Departure", lit "departure", lit "now"⟩] ++
  fieldsFrom 2 ws ++
  [⟨fieldName (ws.length + 2), waypointKey (ws.length + 2), createWaypoint destination⟩]

/-- The mode names of `modes`, in order, joined by single semicolons. -/
def joinedModes {Enum : Type} (ValueOfRouteMode : Enum → GoString) (modes : List Enum) :
    GoString :=
  (lit ";").intercalate (modes.map ValueOfRouteMode)

/-! ## Sample inputs -/

/-- A sample enumeration of route modes. -/
inductive SampleMode where
  | fastest
  | car
  deriving DecidableEq, Repr

/-- A sample `ValueOfRouteMode`. -/
def sampleValue : SampleMode → GoString
  | .fastest => lit "fastest"
  | .car => lit "car"

/-- The pair `[2]float32{52.516, 13.389}`. -/
def berlin : Coord := (⟨1112674402⟩, ⟨1096169816⟩)

/-- The pair `[2]float32{48.8566, 2.3522}`. -/
def paris : Coord := (⟨1111715113⟩, ⟨1075219058⟩)

/-- The pair `[2]float32{50.1109, 8.6821}`. -/
def frankfurt : Coord := (⟨1112043920⟩, ⟨1091234274⟩)

/-- A sample answer of the API to a request without valid credentials:
status 401 with an error payload. -/
def unauthorized : Response :=
  ⟨401, -1, lit "\x7b\"error\":\"Unauthorized\",\"error_description\":\"No credentials found\"\x7d"⟩

/-- A sample answer of the API to a well-formed request: status 200 with a
JSON object. -/
def okAnswer : Response :=
  ⟨200, -1, lit "\x7b\"Response\":\x7b\x7d\x7d"⟩

/-- A sample DTO decoder: it accepts every body and leaves the target as it
is. -/
def sampleDecode : Decoder Unit :=
  fun _ target => (target, none)

/-- A sample decoder for `APIError`: it keeps the payload as the member
`error`. -/
def sampleDecodeError : Decoder APIError :=
  fun body _ => (⟨[(lit "error", body)]⟩, none)

end Here

/-! ## Facts about strings and formatting -/

namespace Here

theorem lit_waypoint : lit "waypoint" = [119, 97, 121, 112, 111, 105, 110, 116] := by decide

theorem lit_Waypoint : lit "Waypoint" = [87, 97, 121, 112, 111, 105, 110, 116] := by decide

theorem digitsRev_isDigit (fuel n b : Nat) (h : b ∈ digitsRev fuel n) : 48 ≤ b ∧ b ≤ 57 := by
  induction fuel generalizing n with
  | zero => simp [digitsRev] at h
  | succ fuel ih =>
    simp only [digitsRev, List.mem_cons] at h
    rcases h with h | h
    · omega
    · split at h
      · simp at h
      · exact ih _ h

theorem Itoa_isDigit (n b : Nat) (h : b ∈ Itoa n) : 48 ≤ b ∧ b ≤ 57 :=
  digitsRev_isDigit (n + 1) n b (by simpa [Itoa] using h)

theorem Itoa_ne_nil (n : Nat) : Itoa n ≠ [] := by
  simp [Itoa, digitsRev]

theorem valRev_digitsRev (fuel n : Nat) (h : n < fuel) : valRev (digitsRev fuel n) = n := by
  induction fuel generalizing n with
  | zero => omega
  | succ fuel ih =>
    simp only [digitsRev]
    split
    · simp only [valRev]; omega
    · rename_i h0
      simp only [valRev]
      rw [ih (n / 10) (by omega)]
      omega

theorem Itoa_injective (a b : Nat) (h : Itoa a = Itoa b) : a = b := by
  have h1 : digitsRev (a + 1) a = digitsRev (b + 1) b := by
    simpa [Itoa] using h
  have h2 := congrArg valRev h1
  rwa [valRev_digitsRev _ _ (Nat.lt_succ_self a), valRev_digitsRev _ _ (Nat.lt_succ_self b)] at h2

theorem ToLower_digits (s : GoString) (h : ∀ b ∈ s, 48 ≤ b ∧ b ≤ 57) : ToLower s = s := by
  induction s with
  | nil => rfl
  | cons b s ih =>
    have hb := h b (List.mem_cons_self b s)
    have hs := ih fun c hc => h c (List.mem_cons_of_mem b hc)
    simp only [ToLower, List.map_cons] at hs ⊢
    rw [hs]
    have : toLowerByte b = b := by
      unfold toLowerByte
      rw [if_neg (by omega)]
    rw [this]

theorem ToLower_Waypoint (k : Nat) :
    ToLower (lit "Waypoint" ++ Itoa k) = lit "waypoint" ++ Itoa k := by
  have h := ToLower_digits (Itoa k) (Itoa_isDigit k)
  simp only [ToLower, List.map_append] at h ⊢
  rw [h]
  rfl

theorem isPositionalKey_waypoint (k : Nat) : isPositionalKey (lit "waypoint" ++ Itoa k) = true := by
  have hd : ((Itoa k).all isDigit) = true := by
    rw [List.all_eq_true]
    intro b hb
    have := Itoa_isDigit k b hb
    simp [isDigit, this]
  have hne : (Itoa k).isEmpty = false := by
    cases h : Itoa k with
    | nil => exact absurd h (Itoa_ne_nil k)
    | cons _ _ => rfl
  simp [isPositionalKey, lit_waypoint, hd, hne]

theorem fmtFloat_isPlain (x : Float32) (b : Nat) (h : b ∈ fmtFloat x) : isPlain b := by
  unfold fmtFloat at h
  simp only at h
  split at h
  · split at h
    · revert b; decide
    · split at h
      · revert b; decide
      · revert b; decide
  · simp only [List.mem_append] at h
    rcases h with ((h | h) | h) | h
    · split at h
      · revert b; decide
      · simp at h
    · have := Itoa_isDigit _ b h
      unfold isPlain; omega
    · revert b; decide
    · simp only [fraction6, List.mem_cons, List.mem_singleton, List.not_mem_nil, or_false] at h
      unfold isPlain; omega

theorem fmtFloat_ne_nil (x : Float32) : fmtFloat x ≠ [] := by
  unfold fmtFloat
  simp only
  split
  · split
    · decide
    · split <;> decide
  · simp [fraction6]

theorem createWaypoint_isPlainOrComma (w : Coord) (b : Nat) (h : b ∈ createWaypoint w) :
    b < 128 := by
  simp only [createWaypoint, List.mem_append] at h
  rcases h with (h | h) | h
  · exact (fmtFloat_isPlain _ b h).1
  · revert b; decide
  · exact (fmtFloat_isPlain _ b h).1

theorem createWaypoint_ne_nil (w : Coord) : createWaypoint w ≠ [] := by
  simp [createWaypoint, fmtFloat_ne_nil]

theorem jsonStringAux_ascii (s : GoString) (fuel : Nat) (hf : s.length ≤ fuel)
    (h : ∀ b ∈ s, b < 128) : jsonStringAux fuel s = s := by
  induction s generalizing fuel with
  | nil => cases fuel <;> rfl
  | cons b s ih =>
    cases fuel with
    | zero => simp at hf
    | succ fuel =>
      have hb : b < 128 := h b (List.mem_cons_self b s)
      have hrec := ih fuel (by simpa using hf) fun c hc => h c (List.mem_cons_of_mem b hc)
      simp [jsonStringAux, runeLen, hb, hrec]

theorem jsonString_ascii (s : GoString) (h : ∀ b ∈ s, b < 128) : jsonString s = s :=
  jsonStringAux_ascii s s.length (Nat.le_refl _) h

theorem jsonString_createWaypoint (w : Coord) : jsonString (createWaypoint w) = createWaypoint w :=
  jsonString_ascii _ (createWaypoint_isPlainOrComma w)

/-- C9: `createWaypoint(w)` is the `%f` rendering of `w[0]`, one comma (byte
44), and the `%f` rendering of `w[1]`, without any space (byte 32); the
result contains exactly one comma, and splitting it at the comma gives back
the two renderings in order. -/
theorem createWaypoint_format (w : Coord) :
    createWaypoint w = fmtFloat w.1 ++ [44] ++ fmtFloat w.2 ∧
    (createWaypoint w).count 44 = 1 ∧
    (createWaypoint w).count 32 = 0 ∧
    (createWaypoint w).splitOn 44 = [fmtFloat w.1, fmtFloat w.2] := by
  have h1 : ∀ b ∈ fmtFloat w.1, isPlain b := fmtFloat_isPlain w.1
  have h2 : ∀ b ∈ fmtFloat w.2, isPlain b := fmtFloat_isPlain w.2
  have c1 : (44 : Nat) ∉ fmtFloat w.1 := fun h => (h1 44 h).2.1 rfl
  have c2 : (44 : Nat) ∉ fmtFloat w.2 := fun h => (h2 44 h).2.1 rfl
  have s1 : (32 : Nat) ∉ fmtFloat w.1 := fun h => (h1 32 h).2.2 rfl
  have s2 : (32 : Nat) ∉ fmtFloat w.2 := fun h => (h2 32 h).2.2 rfl
  have hlit : lit "," = [44] := by decide
  refine ⟨by simp [createWaypoint, hlit], ?_, ?_, ?_⟩
  · simp [createWaypoint, hlit, List.count_eq_zero_of_not_mem c1,
      List.count_eq_zero_of_not_mem c2]
  · simp [createWaypoint, hlit, List.count_eq_zero_of_not_mem s1,
      List.count_eq_zero_of_not_mem s2]
  · have hx : ∀ l ∈ [fmtFloat w.1, fmtFloat w.2], (44 : Nat) ∉ l := by
      intro l hl
      simp only [List.mem_cons, List.mem_singleton, List.not_mem_nil, or_false] at hl
      rcases hl with rfl | rfl
      · exact c1
      · exact c2
    have := List.splitOn_intercalate [fmtFloat w.1, fmtFloat w.2] (44 : Nat) hx (by simp)
    simpa [createWaypoint, hlit, List.intercalate] using this

end Here

/-! ## The dynamic branch, step by step -/

namespace Here

theorem fieldName_injective (a b : Nat) (h : fieldName a = fieldName b) : a = b :=
  Itoa_injective a b (List.append_cancel_left h)

theorem waypointKey_injective (a b : Nat) (h : waypointKey a = waypointKey b) : a = b :=
  Itoa_injective a b (List.append_cancel_left h)

theorem fieldName_head (k : Nat) : (fieldName k).head? = some 87 := by
  simp [fieldName, lit_Waypoint]

theorem fieldName_ne_APIKey (k : Nat) : fieldName k ≠ lit "APIKey" := by
  intro h
  have h1 := fieldName_head k
  rw [h] at h1
  revert h1
  decide

theorem fieldName_ne_Modes (k : Nat) : fieldName k ≠ lit "Modes" := by
  intro h
  have h1 := fieldName_head k
  rw [h] at h1
  revert h1
  decide

theorem fieldName_ne_Departure (k : Nat) : fieldName k ≠ lit "Departure" := by
  intro h
  have h1 := fieldName_head k
  rw [h] at h1
  revert h1
  decide

theorem fieldName_zero : fieldName 0 = lit "Waypoint0" := by decide

theorem fieldName_one : fieldName 1 = lit "Waypoint1" := by decide

theorem waypointKey_zero : waypointKey 0 = lit "waypoint0" := by decide

theorem waypointKey_one : waypointKey 1 = lit "waypoint1" := by decide

theorem ToLower_fieldName (k : Nat) : ToLower (fieldName k) = waypointKey k :=
  ToLower_Waypoint k

theorem AddField_new (l : List FieldConfig) (name url : GoString)
    (h : ∀ c ∈ l, c.name ≠ name) : AddField l name url = l ++ [⟨name, url⟩] := by
  induction l with
  | nil => rfl
  | cons c l ih =>
    have hc : c.name ≠ name := h c (List.mem_cons_self c l)
    have hl := ih fun c2 hc2 => h c2 (List.mem_cons_of_mem c hc2)
    simp [AddField, hc, hl]

theorem Set_new (obj : List (GoString × GoString)) (value name : GoString)
    (h : ∀ kv ∈ obj, kv.1 ≠ name) : Set obj value name = obj ++ [(name, value)] := by
  induction obj with
  | nil => rfl
  | cons kv obj ih =>
    have hc : kv.1 ≠ name := h kv (List.mem_cons_self kv obj)
    have hl := ih fun c2 hc2 => h c2 (List.mem_cons_of_mem kv hc2)
    simp [Set, hc, hl]

theorem lookup_Set (obj : List (GoString × GoString)) (value name k : GoString) :
    (Set obj value name).lookup k = if k = name then some value else obj.lookup k := by
  induction obj with
  | nil =>
    simp only [Set, List.lookup]
    by_cases hk : k = name
    · simp [hk]
    · have : (k == name) = false := by simpa using hk
      simp [hk, this]
  | cons kv obj ih =>
    obtain ⟨a, b⟩ := kv
    by_cases ha : a = name
    · subst ha
      simp only [Set, if_true, List.lookup]
      by_cases hk : k = a
      · simp [hk]
      · have : (k == a) = false := by simpa using hk
        simp [hk, this]
    · simp only [Set, ha, if_false, List.lookup]
      by_cases hk : k = a
      · subst hk
        have : ¬ k = name := ha
        simp [this]
      · have : (k == a) = false := by simpa using hk
        simp [this, ih]

theorem mem_membersFrom (ws : List Coord) (first : Nat) (kv : GoString × GoString)
    (h : kv ∈ membersFrom first ws) :
    ∃ k, first ≤ k ∧ k < first + ws.length ∧ kv.1 = fieldName k := by
  induction ws generalizing first with
  | nil => simp [membersFrom] at h
  | cons w ws ih =>
    simp only [membersFrom, List.mem_cons] at h
    rcases h with h | h
    · exact ⟨first, Nat.le_refl _, by simp, by rw [h]⟩
    · obtain ⟨k, h1, h2, h3⟩ := ih (first + 1) h
      exact ⟨k, by omega, by simp only [List.length_cons]; omega, h3⟩

theorem membersFrom_append (l : List Coord) (first : Nat) (w : Coord) :
    membersFrom first (l ++ [w]) =
      membersFrom first l ++ [(fieldName (first + l.length), createWaypoint w)] := by
  induction l generalizing first with
  | nil => simp [membersFrom]
  | cons a l ih =>
    show membersFrom first (a :: (l ++ [w])) = _
    simp only [membersFrom, List.length_cons, List.cons_append]
    rw [ih]
    have : first + 1 + l.length = first + (l.length + 1) := by omega
    rw [this]

theorem mem_configsFrom (first count : Nat) (c : FieldConfig) (h : c ∈ configsFrom first count) :
    ∃ k, first ≤ k ∧ k < first + count ∧ c.name = fieldName k := by
  simp only [configsFrom, List.mem_map, List.mem_range'_1] at h
  obtain ⟨k, ⟨h1, h2⟩, rfl⟩ := h
  exact ⟨k, h1, h2, rfl⟩

theorem configsFrom_succ (first count : Nat) :
    configsFrom first (count + 1) =
      configsFrom first count ++ [⟨fieldName (first + count), waypointKey (first + count)⟩] := by
  simp [configsFrom, List.range'_1_concat]

theorem configsFrom_cons (first count : Nat) :
    configsFrom first (count + 1) =
      ⟨fieldName first, waypointKey first⟩ :: configsFrom (first + 1) count := by
  simp [configsFrom, List.range'_succ]

theorem ExtendStruct_RoutingParams :
    ExtendStruct (RoutingParams.fields ⟨[], [], [], [], []⟩) = baseConfigs := by decide

theorem AddField_first :
    AddField baseConfigs (lit "Waypoint" ++ Itoa (0 + 1)) (ToLower (lit "Waypoint" ++ Itoa (0 + 1))) =
      baseConfigs := by decide

theorem AddField_step (n : Nat) :
    AddField (baseConfigs ++ configsFrom 2 n) (fieldName (n + 2)) (ToLower (fieldName (n + 2))) =
      baseConfigs ++ configsFrom 2 (n + 1) := by
  rw [ToLower_fieldName, AddField_new, configsFrom_succ, List.append_assoc]
  · have : 2 + n = n + 2 := by omega
    rw [this]
  · intro c hc
    rw [List.mem_append] at hc
    rcases hc with hc | hc
    · simp only [baseConfigs, List.mem_cons, List.mem_singleton, List.not_mem_nil, or_false] at hc
      rcases hc with rfl | rfl | rfl | rfl | rfl
      · intro e
        have := fieldName_injective 0 (n + 2) (by rw [fieldName_zero]; exact e)
        omega
      · intro e
        have := fieldName_injective 1 (n + 2) (by rw [fieldName_one]; exact e)
        omega
      · exact fun e => fieldName_ne_APIKey _ e.symm
      · exact fun e => fieldName_ne_Modes _ e.symm
      · exact fun e => fieldName_ne_Departure _ e.symm
    · obtain ⟨k, h1, h2, h3⟩ := mem_configsFrom _ _ _ hc
      intro e
      have := fieldName_injective k (n + 2) (by rw [← h3]; exact e)
      omega

theorem Set_step (d0 : Coord) (done : List Coord) (w : Coord) :
    Set (membersFrom 1 (d0 :: done)) (createWaypoint w) (fieldName (done.length + 2)) =
      membersFrom 1 (d0 :: (done ++ [w])) := by
  rw [Set_new]
  · have h := membersFrom_append (d0 :: done) 1 w
    simp only [List.cons_append, List.length_cons] at h
    rw [h]
    have : 1 + (done.length + 1) = done.length + 2 := by omega
    rw [this]
  · intro kv hkv
    obtain ⟨k, h1, h2, h3⟩ := mem_membersFrom _ _ _ hkv
    intro e
    have := fieldName_injective k (done.length + 2) (by rw [← h3]; exact e)
    simp only [List.length_cons] at h2
    omega

end Here

/-! ## The dynamic branch as a whole -/

namespace Here

theorem waypointLoop_tail (waypoints : List Coord) (d0 : Coord) :
    ∀ (todo done : List Coord) (fuel : Nat), waypoints = d0 :: (done ++ todo) →
      todo.length + 2 ≤ fuel →
      waypointLoop waypoints fuel
          ⟨done.length + 1, baseConfigs ++ configsFrom 2 done.length, true,
            membersFrom 1 (d0 :: done)⟩ =
        .ok ⟨waypoints.length + 1, baseConfigs ++ configsFrom 2 waypoints.length, true,
          membersFrom 1 waypoints⟩ := by
  intro todo
  induction todo with
  | nil =>
    intro done fuel hw hf
    obtain ⟨f, rfl⟩ : ∃ f, fuel = f + 2 := ⟨fuel - 2, by omega⟩
    have hlen : waypoints.length = done.length + 1 := by simp [hw]
    have hws : d0 :: done = waypoints := by simp [hw]
    have hstep := AddField_step done.length
    simp only [fieldName] at hstep
    rw [waypointLoop]
    simp only [hlen, Nat.le_refl, if_true, Nat.lt_irrefl, if_false, hstep]
    rw [waypointLoop]
    simp only [hlen, hws]
    rw [if_neg (by omega)]
  | cons w t ih =>
    intro done fuel hw hf
    obtain ⟨f, rfl⟩ : ∃ f, fuel = f + 1 := ⟨fuel - 1, by simp only [List.length_cons] at hf; omega⟩
    have hlen : waypoints.length = done.length + 1 + (t.length + 1) := by
      simp [hw]; omega
    have hget : waypoints[done.length + 1]? = some w := by
      rw [hw, List.getElem?_cons_succ, List.getElem?_append_right (Nat.le_refl _)]
      simp
    have hstep := AddField_step done.length
    have hset := Set_step d0 done w
    simp only [fieldName] at hstep hset
    rw [waypointLoop]
    simp only [hget, hstep, hset]
    rw [if_pos (by omega), if_pos (by omega)]
    have := ih (done ++ [w]) f (by simp [hw]) (by simp only [List.length_cons] at hf; omega)
    simp only [List.length_append, List.length_singleton] at this
    exact this

theorem waypointLoop_run (w : Coord) (ws : List Coord) :
    waypointLoop (w :: ws) ((w :: ws).length + 2)
        ⟨0, ExtendStruct (RoutingParams.fields ⟨[], [], [], [], []⟩), false, []⟩ =
      .ok ⟨ws.length + 2, baseConfigs ++ configsFrom 2 (ws.length + 1), true,
        membersFrom 1 (w :: ws)⟩ := by
  rw [waypointLoop, ExtendStruct_RoutingParams]
  simp only [AddField_first]
  rw [if_pos (by omega), if_pos (by simp)]
  have := waypointLoop_tail (w :: ws) w ws [] (ws.length + 1 + 1) (by simp) (by omega)
  simpa [membersFrom, Set, fieldName] using this

end Here

namespace Here

theorem lookup_membersFrom (ws : List Coord) :
    ∀ (first j : Nat) (h : j < ws.length),
      (membersFrom first ws).lookup (fieldName (first + j)) = some (createWaypoint ws[j]) := by
  induction ws with
  | nil => intro first j h; simp at h
  | cons w ws ih =>
    intro first j h
    cases j with
    | zero => simp [membersFrom]
    | succ j =>
      have hne : (fieldName (first + (j + 1)) == fieldName first) = false := by
        rw [beq_eq_false_iff_ne]
        intro e
        have := fieldName_injective _ _ e
        omega
      have hj : j < ws.length := by simpa using h
      have e : first + (j + 1) = first + 1 + j := by omega
      simp only [membersFrom, List.lookup, hne, List.getElem_cons_succ]
      rw [e]
      exact ih (first + 1) j hj

theorem Unmarshal_configsFrom (obj : List (GoString × GoString)) (ws : List Coord) :
    ∀ (first : Nat),
      (∀ (j : Nat) (h : j < ws.length),
        obj.lookup (fieldName (first + j)) = some (createWaypoint ws[j])) →
      Unmarshal obj (New (configsFrom first ws.length)) = fieldsFrom first ws := by
  induction ws with
  | nil => intro first _; rfl
  | cons w ws ih =>
    intro first h
    have h0 := h 0 (by simp)
    simp only [Nat.add_zero, List.getElem_cons_zero] at h0
    have hrec := ih (first + 1) (by
      intro j hj
      have := h (j + 1) (by simpa using hj)
      have e : first + (j + 1) = first + 1 + j := by omega
      rw [e] at this
      simpa using this)
    simp only [Unmarshal, New] at hrec ⊢
    simp only [List.length_cons, configsFrom_cons, List.map_cons, h0, fieldsFrom,
      jsonString_createWaypoint, hrec]

theorem foldl_buffer {Enum : Type} (vm : Enum → GoString) (modes : List Enum) (acc : GoString) :
    modes.foldl (fun buffer routeMode => buffer ++ (vm routeMode ++ lit ";")) acc =
      acc ++ (modes.map fun m => vm m ++ lit ";").flatten := by
  induction modes generalizing acc with
  | nil => simp
  | cons m ms ih => simp [ih]

theorem flatten_terminated (sep x : GoString) (xs : List GoString) :
    ((x :: xs).map fun s => s ++ sep).flatten = sep.intercalate (x :: xs) ++ sep := by
  induction xs generalizing x with
  | nil => simp [List.intercalate]
  | cons y ys ih =>
    have h := ih y
    simp only [List.intercalate, List.map_cons, List.flatten_cons, List.intersperse] at h ⊢
    rw [h]
    simp

theorem routeModes_nil {Enum : Type} (vm : Enum → GoString) :
    routeModes vm [] = .error .sliceBounds := by
  simp [routeModes, sliceTo]

theorem sliceTo_terminated (s : GoString) (b : Nat) :
    sliceTo (s ++ [b]) (((s ++ [b]).length : Int) - 1) = .ok s := by
  have h : (((s ++ [b]).length : Int) - 1) = (s.length : Int) := by
    simp
  rw [h]
  unfold sliceTo
  rw [if_neg (by simp)]
  simp

theorem routeModes_cons {Enum : Type} (vm : Enum → GoString) (m : Enum) (ms : List Enum) :
    routeModes vm (m :: ms) = .ok (joinedModes vm (m :: ms)) := by
  have hf := flatten_terminated (lit ";") (vm m) (ms.map vm)
  have hmap : ((m :: ms).map fun m => vm m ++ lit ";") =
      ((vm m :: ms.map vm).map fun s => s ++ lit ";") := by
    simp [List.map_map, Function.comp_def]
  have hsemi : lit ";" = [59] := by decide
  have hbuf : (m :: ms).foldl (fun buffer routeMode => buffer ++ (vm routeMode ++ lit ";")) [] =
      joinedModes vm (m :: ms) ++ [59] := by
    rw [foldl_buffer, hmap, hf, List.nil_append, joinedModes, List.map_cons, hsemi]
  show sliceTo ((m :: ms).foldl (fun buffer routeMode => buffer ++ (vm routeMode ++ lit ";")) [])
    ((((m :: ms).foldl (fun buffer routeMode => buffer ++ (vm routeMode ++ lit ";")) []).length
      : Int) - 1) = _
  rw [hbuf]
  exact sliceTo_terminated _ _

end Here

namespace Here

theorem CreateRoutingParams_nil_modes {Enum : Type} (vm : Enum → GoString)
    (origin destination : Coord) (waypoints : List Coord) (apiKey : GoString) :
    CreateRoutingParams vm origin destination waypoints apiKey [] = .error .sliceBounds := by
  unfold CreateRoutingParams
  rw [routeModes_nil]
  rfl

theorem CreateRoutingParams_static {Enum : Type} (vm : Enum → GoString)
    (origin destination : Coord) (apiKey : GoString) (m : Enum) (ms : List Enum) :
    CreateRoutingParams vm origin destination [] apiKey (m :: ms) =
      .ok (.static ⟨createWaypoint origin, createWaypoint destination, apiKey,
        joinedModes vm (m :: ms), lit "now"⟩) := by
  unfold CreateRoutingParams
  rw [routeModes_cons]
  rfl

theorem CreateRoutingParams_dynamic {Enum : Type} (vm : Enum → GoString)
    (origin destination w : Coord) (ws : List Coord) (apiKey : GoString) (m : Enum)
    (ms : List Enum) :
    CreateRoutingParams vm origin destination (w :: ws) apiKey (m :: ms) =
      .ok (.dynamic (dynamicFields origin destination w ws apiKey (joinedModes vm (m :: ms)))) := by
  have hlast : ∀ k : Nat, k < ws.length + 2 → fieldName k ≠ fieldName (ws.length + 2) := by
    intro k hk e
    have := fieldName_injective _ _ e
    omega
  have h0 := hlast 0 (by omega)
  have h1 := hlast 1 (by omega)
  rw [fieldName_zero] at h0
  rw [fieldName_one] at h1
  have hA : lit "APIKey" ≠ fieldName (ws.length + 2) := fun e => fieldName_ne_APIKey _ e.symm
  have hM : lit "Modes" ≠ fieldName (ws.length + 2) := fun e => fieldName_ne_Modes _ e.symm
  have hD : lit "Departure" ≠ fieldName (ws.length + 2) := fun e => fieldName_ne_Departure _ e.symm
  have hnow : jsonString (lit "now") = lit "now" := by decide
  have hmem1 : (membersFrom 1 (w :: ws)).lookup (lit "Waypoint1") = some (createWaypoint w) := by
    rw [← fieldName_one]
    simp [membersFrom]
  have hrun := waypointLoop_run w ws
  simp only [List.length_cons] at hrun
  unfold CreateRoutingParams
  rw [routeModes_cons]
  simp only [bind, Except.bind, List.length_cons]
  rw [if_neg (by omega), hrun]
  simp only [pure, Except.pure, Bool.true_eq_false, if_false]
  show Except.ok (Params.dynamic (Unmarshal
    (Set (Set (Set (Set (Set (membersFrom 1 (w :: ws)) apiKey (lit "APIKey"))
      (joinedModes vm (m :: ms)) (lit "Modes")) (lit "now") (lit "Departure"))
      (createWaypoint origin) (lit "Waypoint0"))
      (createWaypoint destination) (fieldName (ws.length + 2)))
    (New (baseConfigs ++ configsFrom 2 (ws.length + 1))))) = _
  generalize hobj : (Set (Set (Set (Set (Set (membersFrom 1 (w :: ws)) apiKey (lit "APIKey"))
      (joinedModes vm (m :: ms)) (lit "Modes")) (lit "now") (lit "Departure"))
      (createWaypoint origin) (lit "Waypoint0"))
      (createWaypoint destination) (fieldName (ws.length + 2))) = obj
  have hlook : ∀ k : GoString, obj.lookup k =
      if k = fieldName (ws.length + 2) then some (createWaypoint destination)
      else if k = lit "Waypoint0" then some (createWaypoint origin)
      else if k = lit "Departure" then some (lit "now")
      else if k = lit "Modes" then some (joinedModes vm (m :: ms))
      else if k = lit "APIKey" then some apiKey
      else (membersFrom 1 (w :: ws)).lookup k := by
    intro k
    rw [← hobj]
    simp only [lookup_Set]
  have hbase : Unmarshal obj (New baseConfigs) =
      [⟨lit "Waypoint0", lit "waypoint0", createWaypoint origin⟩,
       ⟨lit "Waypoint1", lit "waypoint1", createWaypoint w⟩,
       ⟨lit "APIKey", lit "apikey", jsonString apiKey⟩,
       ⟨lit "Modes", lit "mode", jsonString (joinedModes vm (m :: ms))⟩,
       ⟨lit "Departure", lit "departure", lit "now"⟩] := by
    have e1 : lit "Waypoint1" ≠ lit "Waypoint0" := by decide
    have e2 : lit "Waypoint1" ≠ lit "Departure" := by decide
    have e3 : lit "Waypoint1" ≠ lit "Modes" := by decide
    have e4 : lit "Waypoint1" ≠ lit "APIKey" := by decide
    have e5 : lit "APIKey" ≠ lit "Waypoint0" := by decide
    have e6 : lit "APIKey" ≠ lit "Departure" := by decide
    have e7 : lit "APIKey" ≠ lit "Modes" := by decide
    have e8 : lit "Modes" ≠ lit "Waypoint0" := by decide
    have e9 : lit "Modes" ≠ lit "Departure" := by decide
    have e10 : lit "Departure" ≠ lit "Waypoint0" := by decide
    simp only [Unmarshal, New, baseConfigs, List.map_cons, List.map_nil, hlook, h0, h1, hA, hM, hD,
      e1, e2, e3, e4, e5, e6, e7, e8, e9, e10, if_true, if_false, hmem1, hnow,
      jsonString_createWaypoint]
  have hmid : Unmarshal obj (New (configsFrom 2 ws.length)) = fieldsFrom 2 ws := by
    apply Unmarshal_configsFrom
    intro j hj
    have hk : fieldName (2 + j) ≠ fieldName (ws.length + 2) := hlast _ (by omega)
    have hk0 : fieldName (2 + j) ≠ lit "Waypoint0" := by
      rw [← fieldName_zero]
      intro e
      have := fieldName_injective _ _ e
      omega
    rw [hlook]
    simp only [hk, hk0, fieldName_ne_APIKey, fieldName_ne_Modes, fieldName_ne_Departure, if_false]
    have := lookup_membersFrom (w :: ws) 1 (j + 1) (by simpa using hj)
    have e : 1 + (j + 1) = 2 + j := by omega
    rw [e] at this
    simpa using this
  have hend : Unmarshal obj (New [⟨fieldName (2 + ws.length), waypointKey (2 + ws.length)⟩]) =
      [⟨fieldName (ws.length + 2), waypointKey (ws.length + 2), createWaypoint destination⟩] := by
    have e : 2 + ws.length = ws.length + 2 := by omega
    simp only [Unmarshal, New, List.map_cons, List.map_nil, hlook, e, if_true,
      jsonString_createWaypoint]
  have hsplit : Unmarshal obj (New (baseConfigs ++ configsFrom 2 (ws.length + 1))) =
      Unmarshal obj (New baseConfigs) ++ Unmarshal obj (New (configsFrom 2 ws.length)) ++
        Unmarshal obj (New [⟨fieldName (2 + ws.length), waypointKey (2 + ws.length)⟩]) := by
    rw [configsFrom_succ]
    simp only [Unmarshal, New, List.map_append, List.append_assoc]
  rw [hsplit, hbase, hmid, hend]
  rfl

end Here

/-! ## The parameters of the returned value -/

namespace Here

theorem positional_fieldsFrom (ws : List Coord) (first : Nat) :
    ((fieldsFrom first ws).map fun f => (f.url, f.value)).filter
      (fun kv => isPositionalKey kv.1) = pairsFrom first ws := by
  induction ws generalizing first with
  | nil => rfl
  | cons w ws ih =>
    simp only [fieldsFrom, pairsFrom, List.map_cons, List.filter_cons]
    rw [show isPositionalKey (waypointKey first) = true from isPositionalKey_waypoint first]
    simp only [if_true]
    rw [ih]

theorem positional_static (p : RoutingParams) :
    positional (.static p) = [(waypointKey 0, p.Waypoint0), (waypointKey 1, p.Waypoint1)] := by
  have e0 : isPositionalKey (lit "waypoint0") = true := by decide
  have e1 : isPositionalKey (lit "waypoint1") = true := by decide
  have e2 : isPositionalKey (lit "apikey") = false := by decide
  have e3 : isPositionalKey (lit "mode") = false := by decide
  have e4 : isPositionalKey (lit "departure") = false := by decide
  simp [positional, queryValues, Params.fields, RoutingParams.fields, List.filter, e0, e1, e2,
    e3, e4, waypointKey_zero, waypointKey_one]

theorem positional_dynamic (origin destination w : Coord) (ws : List Coord)
    (apiKey rm : GoString) :
    positional (.dynamic (dynamicFields origin destination w ws apiKey rm)) =
      (waypointKey 0, createWaypoint origin) :: (waypointKey 1, createWaypoint w) ::
        (pairsFrom 2 ws ++ [(waypointKey (ws.length + 2), createWaypoint destination)]) := by
  have e0 : isPositionalKey (lit "waypoint0") = true := by decide
  have e1 : isPositionalKey (lit "waypoint1") = true := by decide
  have e2 : isPositionalKey (lit "apikey") = false := by decide
  have e3 : isPositionalKey (lit "mode") = false := by decide
  have e4 : isPositionalKey (lit "departure") = false := by decide
  have e5 := isPositionalKey_waypoint (ws.length + 2)
  have e6 := positional_fieldsFrom ws 2
  simp only [waypointKey] at e5
  simp only [positional, queryValues, Params.fields, dynamicFields, List.map_append,
    List.filter_append, List.map_cons, List.map_nil, List.filter_cons, List.filter_nil, e0, e1,
    e2, e3, e4, e5, e6, waypointKey, if_true, Bool.false_eq_true, if_false, List.cons_append,
    List.nil_append, ← waypointKey_zero, ← waypointKey_one]
  rfl

theorem keys_pairsFrom (ws : List Coord) (first : Nat) :
    (pairsFrom first ws).map Prod.fst = (List.range' first ws.length).map waypointKey := by
  induction ws generalizing first with
  | nil => rfl
  | cons w ws ih => simp [pairsFrom, List.range'_succ, ih]

theorem mem_pairsFrom (ws : List Coord) :
    ∀ (first i : Nat) (h : i < ws.length),
      (waypointKey (first + i), createWaypoint ws[i]) ∈ pairsFrom first ws := by
  induction ws with
  | nil => intro first i h; simp at h
  | cons w ws ih =>
    intro first i h
    cases i with
    | zero => simp [pairsFrom]
    | succ i =>
      have hi : i < ws.length := by simpa using h
      have e : first + (i + 1) = first + 1 + i := by omega
      simp only [pairsFrom, List.getElem_cons_succ, List.mem_cons]
      right
      rw [e]
      exact ih (first + 1) i hi

theorem values_pairsFrom (ws : List Coord) (first : Nat) (kv : GoString × GoString)
    (h : kv ∈ pairsFrom first ws) : kv.2 ≠ [] := by
  induction ws generalizing first with
  | nil => simp [pairsFrom] at h
  | cons w ws ih =>
    simp only [pairsFrom, List.mem_cons] at h
    rcases h with rfl | h
    · exact createWaypoint_ne_nil w
    · exact ih _ h

theorem positional_of_ok {Enum : Type} (vm : Enum → GoString)
    (origin destination : Coord) (waypoints : List Coord) (apiKey : GoString)
    (modes : List Enum) (h : modes ≠ []) :
    ∃ p, CreateRoutingParams vm origin destination waypoints apiKey modes = .ok p ∧
      positional p = (waypointKey 0, createWaypoint origin) ::
        (pairsFrom 1 waypoints ++
          [(waypointKey (waypoints.length + 1), createWaypoint destination)]) := by
  obtain ⟨m, ms, rfl⟩ := List.exists_cons_of_ne_nil h
  cases waypoints with
  | nil =>
    exact ⟨_, CreateRoutingParams_static vm origin destination apiKey m ms, by
      rw [positional_static]; rfl⟩
  | cons w ws =>
    exact ⟨_, CreateRoutingParams_dynamic vm origin destination w ws apiKey m ms, by
      rw [positional_dynamic]; rfl⟩

theorem keys_expected (origin destination : Coord) (waypoints : List Coord) :
    ((waypointKey 0, createWaypoint origin) ::
        (pairsFrom 1 waypoints ++
          [(waypointKey (waypoints.length + 1), createWaypoint destination)])).map Prod.fst =
      (List.range (waypoints.length + 2)).map waypointKey := by
  have h : List.range (waypoints.length + 2) =
      0 :: (List.range' 1 waypoints.length ++ [waypoints.length + 1]) := by
    rw [List.range_eq_range', List.range'_succ, List.range'_1_concat]
    simp [Nat.add_comm]
  rw [h]
  simp [keys_pairsFrom]

end Here

/-! ## The claims on CreateRoutingParams -/

namespace Here

/-- C1, counterexample: for no intermediate waypoint the result has the two
positional keys `waypoint0` and `waypoint1`, and for one intermediate
waypoint the three keys `waypoint0`, `waypoint1`, `waypoint2`: N + 2 keys,
not N + 1. -/
theorem positional_count_counterexample :
    ((CreateRoutingParams sampleValue berlin paris [] (lit "key") [.fastest]).map
        fun p => (positional p).map Prod.fst) =
      .ok [lit "waypoint0", lit "waypoint1"] ∧
    ((CreateRoutingParams sampleValue berlin paris [frankfurt] (lit "key") [.fastest]).map
        fun p => (positional p).map Prod.fst) =
      .ok [lit "waypoint0", lit "waypoint1", lit "waypoint2"] ∧
    [lit "waypoint0", lit "waypoint1"].length ≠ ([] : List Coord).length + 1 ∧
    [lit "waypoint0", lit "waypoint1", lit "waypoint2"].length ≠ [frankfurt].length + 1 := by
  decide

/-- C1, as amended: for every origin, destination, API key, non-empty list of
route modes and every list of N intermediate waypoints, the parameters
returned by `CreateRoutingParams` contain exactly N + 2 positional keys, all
different. -/
theorem positional_count {Enum : Type} (vm : Enum → GoString)
    (origin destination : Coord) (waypoints : List Coord) (apiKey : GoString)
    (modes : List Enum) (h : modes ≠ []) :
    ∃ p, CreateRoutingParams vm origin destination waypoints apiKey modes = .ok p ∧
      (positional p).length = waypoints.length + 2 ∧
      ((positional p).map Prod.fst).Nodup := by
  obtain ⟨p, hp, hpos⟩ := positional_of_ok vm origin destination waypoints apiKey modes h
  refine ⟨p, hp, ?_, ?_⟩
  · have := congrArg List.length (congrArg (List.map Prod.fst) hpos)
    rw [keys_expected] at this
    simpa using this
  · rw [hpos, keys_expected]
    exact (List.nodup_range _).map fun a b e => waypointKey_injective a b e

/-- C1, as amended, at a sample call with one intermediate waypoint. -/
theorem positional_count_witness :
    [SampleMode.fastest, SampleMode.car] ≠ [] ∧
    ∃ p, CreateRoutingParams sampleValue berlin paris [frankfurt] (lit "key")
        [.fastest, .car] = .ok p ∧
      (positional p).length = [frankfurt].length + 2 ∧
      ((positional p).map Prod.fst).Nodup :=
  ⟨by decide, positional_count sampleValue berlin paris [frankfurt] (lit "key")
    [.fastest, .car] (by decide)⟩

/-- C2: for every list of N intermediate waypoints (the empty list included)
the positional parameters are exactly `waypoint0` holding the formatted
origin, `waypoint(i+1)` holding the formatted i-th intermediate waypoint, and
`waypoint(N+1)` holding the formatted destination; their keys are
`waypoint0`, ..., `waypoint(N+1)`, each of them once, and every value is
non-empty.  The parameters form a map: the statement is up to order. -/
theorem positional_sequence {Enum : Type} (vm : Enum → GoString)
    (origin destination : Coord) (waypoints : List Coord) (apiKey : GoString)
    (modes : List Enum) (h : modes ≠ []) :
    ∃ p, CreateRoutingParams vm origin destination waypoints apiKey modes = .ok p ∧
      (positional p).Perm ((waypointKey 0, createWaypoint origin) ::
        (pairsFrom 1 waypoints ++
          [(waypointKey (waypoints.length + 1), createWaypoint destination)])) ∧
      ((positional p).map Prod.fst).Perm
        ((List.range (waypoints.length + 2)).map waypointKey) ∧
      ((positional p).map Prod.fst).Nodup ∧
      (waypointKey 0, createWaypoint origin) ∈ positional p ∧
      (∀ (i : Nat) (hi : i < waypoints.length),
        (waypointKey (i + 1), createWaypoint waypoints[i]) ∈ positional p) ∧
      (waypointKey (waypoints.length + 1), createWaypoint destination) ∈ positional p ∧
      ∀ kv ∈ positional p, kv.2 ≠ [] := by
  obtain ⟨p, hp, hpos⟩ := positional_of_ok vm origin destination waypoints apiKey modes h
  refine ⟨p, hp, ?_, ?_, ?_, ?_, ?_, ?_, ?_⟩
  · rw [hpos]
  · rw [hpos, keys_expected]
  · rw [hpos, keys_expected]
    exact (List.nodup_range _).map fun a b e => waypointKey_injective a b e
  · rw [hpos]
    exact List.mem_cons_self _ _
  · intro i hi
    rw [hpos]
    have hm := mem_pairsFrom waypoints 1 i hi
    have e : 1 + i = i + 1 := by omega
    rw [e] at hm
    exact List.mem_cons_of_mem _ (List.mem_append_left _ hm)
  · rw [hpos]
    exact List.mem_cons_of_mem _ (List.mem_append_right _ (List.mem_singleton_self _))
  · intro kv hkv
    rw [hpos] at hkv
    simp only [List.mem_cons, List.mem_append, List.mem_singleton, List.not_mem_nil,
      or_false] at hkv
    rcases hkv with rfl | hkv | rfl
    · exact createWaypoint_ne_nil origin
    · exact values_pairsFrom _ _ _ hkv
    · exact createWaypoint_ne_nil destination

/-- C2 at a sample call with two intermediate waypoints. -/
theorem positional_sequence_witness :
    [SampleMode.fastest] ≠ [] ∧
    ∃ p, CreateRoutingParams sampleValue berlin paris [frankfurt, berlin] (lit "key")
        [.fastest] = .ok p ∧
      (positional p).Perm ((waypointKey 0, createWaypoint berlin) ::
        (pairsFrom 1 [frankfurt, berlin] ++
          [(waypointKey ([frankfurt, berlin].length + 1), createWaypoint paris)])) ∧
      ((positional p).map Prod.fst).Perm
        ((List.range ([frankfurt, berlin].length + 2)).map waypointKey) ∧
      ((positional p).map Prod.fst).Nodup ∧
      (waypointKey 0, createWaypoint berlin) ∈ positional p ∧
      (∀ (i : Nat) (hi : i < [frankfurt, berlin].length),
        (waypointKey (i + 1), createWaypoint [frankfurt, berlin][i]) ∈ positional p) ∧
      (waypointKey ([frankfurt, berlin].length + 1), createWaypoint paris) ∈ positional p ∧
      ∀ kv ∈ positional p, kv.2 ≠ [] :=
  ⟨by decide, positional_sequence sampleValue berlin paris [frankfurt, berlin] (lit "key")
    [.fastest] (by decide)⟩

/-- C6, at the failing input: with the API key `"\xff"` (byte 255) the
zero-waypoint branch returns the key as it is, while the branch for one
intermediate waypoint returns U+FFFD (bytes 239, 191, 189) in its place; at
that input `mode` and `departure` are as the claim says and there are three
parameters besides the positional ones. -/
theorem apikey_invalid_utf8 :
    ((CreateRoutingParams sampleValue berlin paris [] [255] [.fastest]).map
        fun p => (queryValues p).lookup (lit "apikey")) = .ok (some [255]) ∧
    ((CreateRoutingParams sampleValue berlin paris [frankfurt] [255] [.fastest]).map
        fun p => (queryValues p).lookup (lit "apikey")) = .ok (some [239, 191, 189]) ∧
    ([239, 191, 189] : GoString) ≠ [255] ∧
    ((CreateRoutingParams sampleValue berlin paris [frankfurt] [255] [.fastest]).map
        fun p => (queryValues p).lookup (lit "mode")) = .ok (some (lit "fastest")) ∧
    ((CreateRoutingParams sampleValue berlin paris [frankfurt] [255] [.fastest]).map
        fun p => (queryValues p).lookup (lit "departure")) = .ok (some (lit "now")) ∧
    ((CreateRoutingParams sampleValue berlin paris [frankfurt] [255] [.fastest]).map
        fun p => (nonPositional p).length) = .ok 3 := by
  decide

/-- C7: for every non-empty list of route modes the mode value built by
`CreateRoutingParams` (its local `routeModes`) is exactly the mode names in
input order joined by single semicolons, without a trailing one; it is the
`mode` parameter of the zero-waypoint result, and the `mode` parameter of the
other results after its passage through JSON. -/
theorem routeModes_joined {Enum : Type} (vm : Enum → GoString) (modes : List Enum)
    (h : modes ≠ []) :
    routeModes vm modes = .ok ((lit ";").intercalate (modes.map vm)) ∧
    ∀ (origin destination : Coord) (waypoints : List Coord) (apiKey : GoString),
      ∃ p, CreateRoutingParams vm origin destination waypoints apiKey modes = .ok p ∧
        (queryValues p).lookup (lit "mode") =
          some (if waypoints.length ≤ 0 then (lit ";").intercalate (modes.map vm)
            else jsonString ((lit ";").intercalate (modes.map vm))) := by
  obtain ⟨m, ms, rfl⟩ := List.exists_cons_of_ne_nil h
  refine ⟨routeModes_cons vm m ms, ?_⟩
  intro origin destination waypoints apiKey
  have e1 : (lit "mode" == lit "waypoint0") = false := by decide
  have e2 : (lit "mode" == lit "waypoint1") = false := by decide
  have e3 : (lit "mode" == lit "apikey") = false := by decide
  cases waypoints with
  | nil =>
    refine ⟨_, CreateRoutingParams_static vm origin destination apiKey m ms, ?_⟩
    simp [queryValues, Params.fields, RoutingParams.fields, List.lookup, e1, e2, e3,
      joinedModes]
  | cons w ws =>
    refine ⟨_, CreateRoutingParams_dynamic vm origin destination w ws apiKey m ms, ?_⟩
    simp [queryValues, Params.fields, dynamicFields, List.lookup, e1, e2, e3, joinedModes]

/-- C7 at the sample modes `fastest` and `car`. -/
theorem routeModes_joined_witness :
    [SampleMode.fastest, SampleMode.car] ≠ [] ∧
    routeModes sampleValue [.fastest, .car] = .ok (lit "fastest;car") :=
  ⟨by decide, (routeModes_joined sampleValue [.fastest, .car] (by decide)).1⟩

/-- C8: `CreateRoutingParams` returns, without any out-of-range access, if and
only if the list of modes is non-empty; for the empty list it stops with a
slice-bounds panic, raised by `routeModes[:len(routeModes)-1]` before any
parameter is built. -/
theorem CreateRoutingParams_safe {Enum : Type} (vm : Enum → GoString)
    (origin destination : Coord) (waypoints : List Coord) (apiKey : GoString)
    (modes : List Enum) :
    ((∃ p, CreateRoutingParams vm origin destination waypoints apiKey modes = .ok p) ↔
      modes ≠ []) ∧
    routeModes vm ([] : List Enum) = .error .sliceBounds ∧
    CreateRoutingParams vm origin destination waypoints apiKey [] = .error .sliceBounds := by
  refine ⟨⟨?_, ?_⟩, routeModes_nil vm, CreateRoutingParams_nil_modes vm _ _ _ _⟩
  · rintro ⟨p, hp⟩ rfl
    rw [CreateRoutingParams_nil_modes] at hp
    cases hp
  · intro h
    obtain ⟨p, hp, _⟩ := positional_of_ok vm origin destination waypoints apiKey modes h
    exact ⟨p, hp⟩

end Here

/-! ## The claims on the service methods -/

namespace Here

theorem relevantError_some (e : Error) (apiError : APIError) :
    relevantError (some e) apiError ≠ none := by
  simp [relevantError]

theorem relevantError_payload (httpError : Option Error) (apiError : APIError)
    (h : apiError.Empty = false) : relevantError httpError apiError ≠ none := by
  cases httpError with
  | none => simp [relevantError, h]
  | some e => simp [relevantError]

theorem Receive_failed {S F : Type} (decodeS : Decoder S) (decodeF : Decoder F)
    (httpClient : Request → Exchange) (req : Request) (successV : Option S)
    (failureV : Option F) (msg : GoString) (h : httpClient req = .failed msg) :
    (Receive decodeS decodeF httpClient req successV failureV).err = some (.transport msg) := by
  simp [Receive, h]

theorem Receive_failure_payload {S F : Type} (decodeS : Decoder S) (decodeF : Decoder F)
    (httpClient : Request → Exchange) (req : Request) (successV : Option S)
    (f : F) (resp : Response) (h : httpClient req = .answered resp)
    (hs : ¬ (200 ≤ resp.StatusCode ∧ resp.StatusCode ≤ 299)) (hc : resp.ContentLength ≠ 0) :
    (Receive decodeS decodeF httpClient req successV (some f)).failureV =
      some (decodeF resp.Body f).1 := by
  have h204 : resp.StatusCode ≠ 204 := by
    intro e
    exact hs (by omega)
  simp [Receive, h, h204, hc, hs]

theorem Receive_success {S F : Type} (decodeS : Decoder S) (decodeF : Decoder F)
    (httpClient : Request → Exchange) (req : Request) (s : S)
    (failureV : Option F) (resp : Response) (h : httpClient req = .answered resp)
    (hs : 200 ≤ resp.StatusCode ∧ resp.StatusCode ≤ 299) (hd : (decodeS resp.Body s).2 = none) :
    (Receive decodeS decodeF httpClient req (some s) failureV).err = none ∧
    (Receive decodeS decodeF httpClient req (some s) failureV).failureV = failureV := by
  by_cases h0 : resp.StatusCode = 204 ∨ resp.ContentLength = 0
  · simp [Receive, h, h0]
  · simp [Receive, h, h0, hs, hd]

theorem Receive_successV {S F : Type} (decodeS : Decoder S) (decodeF : Decoder F)
    (httpClient : Request → Exchange) (req : Request) (s : S) (failureV : Option F) :
    (Receive decodeS decodeF httpClient req (some s) failureV).successV ≠ none := by
  unfold Receive
  split
  · simp
  · split
    · simp
    · split
      · simp
      · split <;> simp

theorem Receive_no_failure_target {S F : Type} (decodeS : Decoder S) (decodeF : Decoder F)
    (httpClient : Request → Exchange) (req : Request) (successV : Option S)
    (resp : Response) (h : httpClient req = .answered resp)
    (hs : ¬ (200 ≤ resp.StatusCode ∧ resp.StatusCode ≤ 299)) :
    (Receive decodeS decodeF httpClient req successV none).err = none := by
  by_cases h0 : resp.StatusCode = 204 ∨ resp.ContentLength = 0
  · simp [Receive, h, h0]
  · simp [Receive, h, h0, hs]

end Here

namespace Here

/-- C3: `Route` returns a non-nil error whenever the request fails at
transport level, and whenever the API answers with a non-success status
carrying an error payload (a body that leaves a non-empty `APIError`); it
returns a nil error only when neither happened; and the error it returns is
the one value `relevantError(err, *apiError)`. -/
theorem Route_error {R : Type} (zero : R) (decode : Decoder R)
    (decodeError : Decoder APIError) (httpClient : Request → Exchange) (params : Params) :
    (∀ msg, httpClient ⟨lit "calculateroute.json", queryValues params⟩ = .failed msg →
      (Route zero decode decodeError httpClient params).err ≠ none) ∧
    (∀ resp, httpClient ⟨lit "calculateroute.json", queryValues params⟩ = .answered resp →
      ¬ (200 ≤ resp.StatusCode ∧ resp.StatusCode ≤ 299) → resp.ContentLength ≠ 0 →
      (decodeError resp.Body ⟨[]⟩).1.Empty = false →
      (Route zero decode decodeError httpClient params).err ≠ none) ∧
    ((Route zero decode decodeError httpClient params).err = none →
      (∀ msg, httpClient ⟨lit "calculateroute.json", queryValues params⟩ ≠ .failed msg) ∧
      ∀ resp, httpClient ⟨lit "calculateroute.json", queryValues params⟩ = .answered resp →
        ¬ (200 ≤ resp.StatusCode ∧ resp.StatusCode ≤ 299) → resp.ContentLength ≠ 0 →
        (decodeError resp.Body ⟨[]⟩).1.Empty = true) ∧
    (Route zero decode decodeError httpClient params).err =
      relevantError
        (Receive decode decodeError httpClient ⟨lit "calculateroute.json", queryValues params⟩
          (some zero) (some ⟨[]⟩)).err
        ((Receive decode decodeError httpClient ⟨lit "calculateroute.json", queryValues params⟩
          (some zero) (some ⟨[]⟩)).failureV.getD ⟨[]⟩) := by
  have hfail : ∀ msg, httpClient ⟨lit "calculateroute.json", queryValues params⟩ = .failed msg →
      (Route zero decode decodeError httpClient params).err ≠ none := by
    intro msg h
    simp only [Route]
    rw [Receive_failed _ _ _ _ _ _ msg h]
    exact relevantError_some _ _
  have hapi : ∀ resp,
      httpClient ⟨lit "calculateroute.json", queryValues params⟩ = .answered resp →
      ¬ (200 ≤ resp.StatusCode ∧ resp.StatusCode ≤ 299) → resp.ContentLength ≠ 0 →
      (decodeError resp.Body ⟨[]⟩).1.Empty = false →
      (Route zero decode decodeError httpClient params).err ≠ none := by
    intro resp h hs hc he
    simp only [Route]
    rw [Receive_failure_payload _ _ _ _ _ _ resp h hs hc]
    exact relevantError_payload _ _ he
  refine ⟨hfail, hapi, ?_, rfl⟩
  intro hnil
  refine ⟨fun msg h => hfail msg h hnil, fun resp h hs hc => ?_⟩
  by_cases he : (decodeError resp.Body ⟨[]⟩).1.Empty = true
  · exact he
  · exact absurd hnil (hapi resp h hs hc (by simpa using he))

/-- C3 at a sample answer: status 401 with an error payload gives a non-nil
error. -/
theorem Route_error_witness :
    (Route () sampleDecode sampleDecodeError (fun _ => .answered unauthorized)
      (.static ⟨[], [], [], [], []⟩)).err ≠ none :=
  (Route_error () sampleDecode sampleDecodeError (fun _ => .answered unauthorized)
    (.static ⟨[], [], [], [], []⟩)).2.1 unauthorized rfl (by decide) (by decide) rfl

/-- C4, at the failing input: for the answer `401` with an error payload,
`Search` returns a nil error, whatever the decoder, while `Route` returns a
non-nil error for the same answer. -/
theorem Search_error_payload {G R : Type} (zeroG : G) (decodeG : Decoder G) (zeroR : R)
    (decodeR : Decoder R) (text : GoString) (params : Params) :
    (Search zeroG decodeG (fun _ => .answered unauthorized) text).err = none ∧
    (Route zeroR decodeR sampleDecodeError (fun _ => .answered unauthorized) params).err ≠
      none := by
  constructor
  · simp only [Search, ReceiveSuccess]
    exact Receive_no_failure_target _ _ _ _ _ unauthorized rfl (by decide)
  · simp only [Route]
    rw [Receive_failure_payload _ _ _ _ _ _ unauthorized rfl (by decide) (by decide)]
    exact relevantError_payload _ _ rfl

/-- C5: every service method returns a non-nil DTO pointer on every call, and
for a 2xx answer whose body decodes into the DTO without error it returns a
nil error. -/
theorem service_success {R : Type} (zero : R) (decode : Decoder R)
    (decodeError : Decoder APIError) (httpClient : Request → Exchange) :
    (∀ params : Params,
      (Route zero decode decodeError httpClient params).dto ≠ none ∧
      ∀ resp, httpClient ⟨lit "calculateroute.json", queryValues params⟩ = .answered resp →
        200 ≤ resp.StatusCode ∧ resp.StatusCode ≤ 299 → (decode resp.Body zero).2 = none →
        (Route zero decode decodeError httpClient params).err = none) ∧
    (∀ text : GoString,
      (Search zero decode httpClient text).dto ≠ none ∧
      ∀ resp, httpClient ⟨lit "geocode.json", [(lit "searchtext", text)]⟩ = .answered resp →
        200 ≤ resp.StatusCode ∧ resp.StatusCode ≤ 299 → (decode resp.Body zero).2 = none →
        (Search zero decode httpClient text).err = none) ∧
    (∀ req : Request,
      (SevereWeatherAlerts zero decode decodeError httpClient req).dto ≠ none ∧
      ∀ resp, httpClient req = .answered resp →
        200 ≤ resp.StatusCode ∧ resp.StatusCode ≤ 299 → (decode resp.Body zero).2 = none →
        (SevereWeatherAlerts zero decode decodeError httpClient req).err = none) ∧
    (∀ req : Request,
      (WeatherConditions zero decode decodeError httpClient req).dto ≠ none ∧
      ∀ resp, httpClient req = .answered resp →
        200 ≤ resp.StatusCode ∧ resp.StatusCode ≤ 299 → (decode resp.Body zero).2 = none →
        (WeatherConditions zero decode decodeError httpClient req).err = none) := by
  have hcall : ∀ req : Request,
      (weatherCall zero decode decodeError httpClient req).dto ≠ none ∧
      ∀ resp, httpClient req = .answered resp →
        200 ≤ resp.StatusCode ∧ resp.StatusCode ≤ 299 → (decode resp.Body zero).2 = none →
        (weatherCall zero decode decodeError httpClient req).err = none := by
    intro req
    refine ⟨Receive_successV _ _ _ _ _ _, ?_⟩
    intro resp h hs hd
    obtain ⟨h1, h2⟩ := Receive_success decode decodeError httpClient req zero
      (some ⟨[]⟩) resp h hs hd
    simp only [weatherCall, h1, h2]
    rfl
  refine ⟨fun params => hcall _, ?_, hcall, hcall⟩
  intro text
  refine ⟨Receive_successV _ _ _ _ _ _, ?_⟩
  intro resp h hs hd
  simp only [Search, ReceiveSuccess]
  exact (Receive_success decode _ httpClient _ zero none resp h hs hd).1

/-- C5 at a sample answer: status 200 with a body the decoder accepts gives
a DTO and a nil error. -/
theorem service_success_witness :
    (Search () sampleDecode (fun _ => .answered okAnswer) (lit "Berlin")).dto ≠ none ∧
    (Search () sampleDecode (fun _ => .answered okAnswer) (lit "Berlin")).err = none :=
  ⟨((service_success () sampleDecode sampleDecodeError (fun _ => .answered okAnswer)).2.1
      (lit "Berlin")).1,
    ((service_success () sampleDecode sampleDecodeError (fun _ => .answered okAnswer)).2.1
      (lit "Berlin")).2 okAnswer rfl (by decide) rfl⟩

end Here
